/-
Verification of the ascii-dream prefetch/generation queue against its
specification.

The definitions below are a shallow embedding of the Python sources:
  * `src/ascii_dream/queue.py`   (class ImageQueue: _generate_with_retry,
    _producer, start, stop, get, empty, prefill)
  * `src/ascii_dream/prompt_evolution.py` (PromptEvolver.evolve, get_evolver,
    JOURNEYS, COLOR_PALETTE, NATURE_ELEMENTS)

Asynchronous effects are made explicit:
  * the remote generator (`self.generator.generate`) is an oracle
    `gen : Nat -> Option Image` indexed by a running call counter; `none`
    models the call raising an exception, `some img` a successful call;
  * every generation call and every `asyncio.sleep` executed by the retry
    helper is recorded in an event trace;
  * the prompt iterator is an oracle `Nat -> Option String` indexed by
    position (`none` models `StopIteration`);
  * `random.choice` draws are an oracle of choice indices;
  * `asyncio.Queue(maxsize=...)` is modelled as a bounded FIFO transition
    system in which a disabled operation (put on a full queue, get on an
    empty queue) leaves the state unchanged: the calling task stays
    suspended while the scheduler moves on.
-/
import Mathlib

namespace AsciiDream

/-- Images are opaque payloads; the queue logic never inspects them. -/
abbrev Image := Nat

/-- Arguments of one call to `self.generator.generate` that the claims talk
about: the prompt text and the seed (`none` = Python `None`). -/
structure GenCall where
  prompt : String
  seed : Option Nat
deriving DecidableEq, Repr

/-- Observable effects of the retry helper: a generation call, or an
`asyncio.sleep` of the given number of seconds. -/
inductive Event where
  | call : GenCall → Event
  | sleep : Nat → Event
deriving DecidableEq, Repr

/-- Outcome of `_generate_with_retry`: a returned `(prompt, image)` pair, an
exception propagating to the caller (the fallback call itself failed), or the
Python `None` that is returned when the `for attempt in range(max_retries)`
loop body never runs. -/
inductive RetryResult where
  | ok : String → Image → RetryResult
  | raised : RetryResult
  | noneReturned : RetryResult
deriving DecidableEq, Repr

/-- The loop `for attempt in range(max_retries)` of
`ImageQueue._generate_with_retry` (src/ascii_dream/queue.py lines 54-73).
`remaining` is the number of loop iterations still to run (initially
`max_retries`), so the current `attempt` is `maxR - remaining`; `ctr` is the
index the generator oracle is consulted at (one increment per call).  On
success the pair `(prompt, image)` is returned; on failure at the final
attempt (`attempt == max_retries - 1`) one fallback call with the hardcoded
prompt "abstract colorful shapes" and seed `None` is made, returning the
fallback-labelled pair on success and propagating the exception otherwise;
on failure at a non-final attempt the helper sleeps `2 ** attempt` seconds
and retries.  Returns (result, event trace, next oracle index). -/
def retryLoop (gen : Nat → Option Image) (prompt : String) (seed : Option Nat)
    (maxR : Nat) : Nat → Nat → RetryResult × List Event × Nat
  | 0, ctr => (RetryResult.noneReturned, [], ctr)
  | remaining + 1, ctr =>
    let attempt : Nat := maxR - (remaining + 1)
    match gen ctr with
    | some img => (RetryResult.ok prompt img, [Event.call ⟨prompt, seed⟩], ctr + 1)
    | none =>
      if attempt = maxR - 1 then
        match gen (ctr + 1) with
        | some img =>
            (RetryResult.ok "abstract colorful shapes [fallback]" img,
             [Event.call ⟨prompt, seed⟩, Event.call ⟨"abstract colorful shapes", none⟩],
             ctr + 2)
        | none =>
            (RetryResult.raised,
             [Event.call ⟨prompt, seed⟩, Event.call ⟨"abstract colorful shapes", none⟩],
             ctr + 2)
      else
        let r := retryLoop gen prompt seed maxR remaining (ctr + 1)
        (r.1, Event.call ⟨prompt, seed⟩ :: Event.sleep (2 ^ attempt) :: r.2.1, r.2.2)

/-- `ImageQueue._generate_with_retry(prompt, seed, max_retries)`.  The Python
parameter `max_retries` is an `int`; `range(max_retries)` runs
`max(max_retries, 0)` iterations, i.e. `maxRetries.toNat` many. -/
def generateWithRetry (gen : Nat → Option Image) (prompt : String) (seed : Option Nat)
    (maxRetries : Int) (ctr : Nat) : RetryResult × List Event × Nat :=
  retryLoop gen prompt seed maxRetries.toNat maxRetries.toNat ctr

/-- Durations of the sleeps in an event trace, in order. -/
def sleepsOf (evs : List Event) : List Nat :=
  evs.filterMap fun e => match e with
    | Event.sleep n => some n
    | _ => none

/-- Prompts of the generation calls in an event trace, in order. -/
def callPrompts (evs : List Event) : List String :=
  evs.filterMap fun e => match e with
    | Event.call c => some c.prompt
    | _ => none

/-- The generation calls in an event trace, in order. -/
def callsOf (evs : List Event) : List GenCall :=
  evs.filterMap fun e => match e with
    | Event.call c => some c
    | _ => none

/-- A frame as held by `ImageQueue.queue`: despite the comment "just the
image" in `_producer`, the value put on the queue is the `(prompt, image)`
pair returned by `_generate_with_retry`. -/
abbrev Frame := String × Image

/-- Mutable state of the producer loop: `prompt_buffer`, `cycle_count` (a
local of `_producer`), `self._frame_index`, the position of the prompt
iterator, and the generator oracle index. -/
structure PState where
  buffer : List String
  cycleCount : Nat
  frameIndex : Nat
  iterPos : Nat
  genCtr : Nat
deriving DecidableEq, Repr

/-- The initial producer state (fresh `ImageQueue`). -/
def PState.init : PState := ⟨[], 0, 0, 0, 0⟩

/-- The buffer-refill loop `for i in range(frames_per_cycle)` of `_producer`
(queue.py lines 86-93): draw one prompt per slot from the iterator; on
`StopIteration` append the fallback prompt "abstract colorful patterns" and
break.  Returns the new buffer and the new iterator position. -/
def refill (it : Nat → Option String) : Nat → Nat → List String × Nat
  | 0, pos => ([], pos)
  | n + 1, pos =>
    match it pos with
    | some p =>
        let r := refill it n (pos + 1)
        (p :: r.1, r.2)
    | none => (["abstract colorful patterns"], pos)

/-- One iteration of the `while self._running` body of `ImageQueue._producer`
(queue.py lines 80-115), for `frames_per_cycle = n`.  Returns
`(put, events, state)` where `put = some x` means the value `x` was put on
the queue this iteration (`x : Option Frame`, with `none` the Python `None`
that would be enqueued if `_generate_with_retry` fell off its loop) and
`put = none` means the iteration raised and was absorbed by the
`except Exception` arm (a 1-second sleep, state otherwise kept).  The
refill runs when `cycle_count == 0 or frames_per_cycle > 1`; an empty
buffer makes `self._frame_index % len(prompt_buffer)` raise
`ZeroDivisionError`, absorbed the same way; `_generate_with_retry` is called
with the default `seed=None, max_retries=2`. -/
def producerIter (it : Nat → Option String) (gen : Nat → Option Image) (n : Nat)
    (s : PState) : Option (Option Frame) × List Event × PState :=
  let refreshed :=
    if s.cycleCount = 0 ∨ n > 1 then
      let r := refill it n s.iterPos
      ((r.1.take n : List String), s.cycleCount + 1, r.2)
    else (s.buffer, s.cycleCount, s.iterPos)
  let buffer := refreshed.1
  let cc := refreshed.2.1
  let pos := refreshed.2.2
  if buffer.length = 0 then
    (none, [], ⟨buffer, cc, s.frameIndex, pos, s.genCtr⟩)
  else
    let prompt := buffer.getD (s.frameIndex % buffer.length) ""
    let g := generateWithRetry gen prompt none 2 s.genCtr
    match g.1 with
    | RetryResult.ok p img =>
        (some (some (p, img)), g.2.1,
         ⟨buffer, cc, (s.frameIndex + 1) % buffer.length, pos, g.2.2⟩)
    | RetryResult.raised =>
        (none, g.2.1, ⟨buffer, cc, s.frameIndex, pos, g.2.2⟩)
    | RetryResult.noneReturned =>
        (some none, g.2.1,
         ⟨buffer, cc, (s.frameIndex + 1) % buffer.length, pos, g.2.2⟩)

/-- Trace of a bounded run of the producer loop: the values put on the queue
in order, the generation/sleep events, and the final state. -/
structure PRun where
  items : List (Option Frame)
  events : List Event
  state : PState
deriving DecidableEq, Repr

/-- Run the `while self._running` loop of `_producer` for at most `fuel`
iterations starting at iteration number `i`.  `running j` is the value of
`self._running` observed by the `while` test before iteration `j`; the flag
is only consulted there, so a `stop()` issued mid-iteration lets the current
iteration (including its in-flight generation call and its queue put) finish. -/
def producerRun (running : Nat → Bool) (it : Nat → Option String)
    (gen : Nat → Option Image) (n : Nat) : Nat → Nat → PState → PRun
  | _, 0, s => ⟨[], [], s⟩
  | i, fuel + 1, s =>
    if running i then
      let step := producerIter it gen n s
      let rest := producerRun running it gen n (i + 1) fuel step.2.2
      ⟨step.1.toList ++ rest.items, step.2.1 ++ rest.events, rest.state⟩
    else ⟨[], [], s⟩

/-! ### The bounded queue channel

`ImageQueue.__init__` creates `asyncio.Queue(maxsize=queue_depth)`; the
producer publishes with `await self.queue.put(...)` (suspends while the
queue holds `maxsize` items), the consumer retrieves with
`await self.queue.get()` (suspends while it is empty) and may poll
`self.queue.empty()` without suspending.  We model the channel as a
transition system over an arbitrary item type: an interleaving is a list of
attempted operations, and an operation that is not enabled leaves the state
unchanged (the task stays suspended while the scheduler moves on). -/

/-- An operation attempted on the channel: a producer `put` or a consumer
(blocking) `get`. -/
inductive QOp (α : Type) where
  | put : α → QOp α
  | take : QOp α
deriving DecidableEq

/-- Channel history: current buffer, items delivered to the consumer so far
(in order), and items accepted from the producer so far (in order). -/
structure QTrace (α : Type) where
  buf : List α
  delivered : List α
  inserted : List α
deriving DecidableEq

/-- One scheduler step of the channel with capacity `cap`: a `put` appends
only when the buffer holds fewer than `cap` items (otherwise the producer
stays suspended and nothing changes); a `take` removes the oldest item when
the buffer is non-empty (otherwise the consumer stays suspended). -/
def qstep (cap : Nat) (t : QTrace α) : QOp α → QTrace α
  | QOp.put x =>
      if t.buf.length < cap then ⟨t.buf ++ [x], t.delivered, t.inserted ++ [x]⟩ else t
  | QOp.take =>
      match t.buf with
      | [] => t
      | x :: rest => ⟨rest, t.delivered ++ [x], t.inserted⟩

/-- Run an interleaving of channel operations from the empty queue. -/
def qrun (cap : Nat) (ops : List (QOp α)) : QTrace α :=
  ops.foldl (qstep cap) ⟨[], [], []⟩

/-- `ImageQueue.empty()`: the non-blocking poll `self.queue.empty()`. -/
def emptyPoll (t : QTrace α) : Bool := t.buf.isEmpty

/-! ### stop / get / prefill / start -/

/-- The world seen by a consumer that called `await queue.get()` after the
producer has stopped: state is (queue buffer, whether the `get` has
returned).  `ImageQueue.get` is `await self.queue.get()` with no timeout
parameter, so the only transition that completes it is the arrival of a
buffered item; with the producer stopped no item ever arrives, and on an
empty buffer every scheduler step leaves the consumer suspended. -/
def getStoppedStep (st : List Frame × Bool) : List Frame × Bool :=
  match st with
  | ([], r) => ([], r)
  | (_ :: rest, _) => (rest, true)

/-- After `stop()`, a `get()` issued on an empty queue is still suspended
after every finite number of scheduler steps. -/
def getStuckForever : Prop :=
  ∀ n : Nat, (getStoppedStep^[n] (([] : List Frame), false)).2 = false

/-- `ImageQueue.prefill()` (queue.py lines 141-144): poll
`self.queue.qsize()` every 0.1 seconds, returning once it is no longer
below `self.queue_depth`.  `qsize j` is the size observed at the j-th poll;
the result is the index of the poll at which the loop exits, or `none` if
it is still polling after `fuel` polls. -/
def prefillRun (qsize : Nat → Nat) (depth : Nat) : Nat → Nat → Option Nat
  | _, 0 => none
  | j, fuel + 1 =>
    if qsize j < depth then prefillRun qsize depth (j + 1) fuel else some j

/-- Task-management state of an `ImageQueue`: the `_running` flag and the
number of producer tasks that have been started and not yet terminated.
Modelled from `start()` (queue.py lines 117-120): it sets `_running = True`
and calls `asyncio.create_task(self._producer())`, overwriting
`self._producer_task` without cancelling or awaiting any existing task; a
producer task only terminates after observing `_running == False`, so while
the flag stays true every previously started task remains alive. -/
structure QCtl where
  running : Bool
  producerTasks : Nat
deriving DecidableEq, Repr

/-- `ImageQueue.start()`. -/
def startQ (c : QCtl) : QCtl :=
  { running := true, producerTasks := c.producerTasks + 1 }

/-! ### Prompt evolution (src/ascii_dream/prompt_evolution.py) -/

/-- The `JOURNEYS` template table, verbatim from the source. -/
def JOURNEYS : String → List String
  | "abstract" =>
    ["geometric {color} shapes flowing smoothly",
     "swirling {color} and {color2} patterns",
     "abstract {color} waves in motion",
     "crystalline {color} structures forming",
     "fluid {color} ribbons dancing",
     "scattered {color} particles coalescing",
     "radiating {color} energy patterns",
     "interlocking {color} geometric forms",
     "flowing {color} liquid streams",
     "dynamic {color} and {color2} composition"]
  | "nature" =>
    ["{element} in {color} light",
     "organic {element} patterns growing",
     "{element} flowing like {color} water",
     "ethereal {color} {element} swirling",
     "dreamy {element} in {color} mist",
     "{element} blooming with {color} energy",
     "wild {color} {element} dancing",
     "serene {element} in {color} atmosphere"]
  | "cosmic" =>
    ["{color} nebula swirling in space",
     "cosmic {color} energy flowing",
     "stellar {color} and {color2} clouds",
     "galactic {color} vortex spinning",
     "celestial {color} patterns forming",
     "astral {color} waves rippling",
     "interstellar {color} matter dispersing",
     "cosmic {color2} dust in {color} void"]
  | "liquid" =>
    ["{color} paint swirling in water",
     "liquid {color} and {color2} mixing",
     "flowing {color} ink dispersing",
     "{color} liquid marble patterns",
     "viscous {color} fluid in motion",
     "aquatic {color} and {color2} streams",
     "molten {color} material flowing",
     "fluid {color} dynamics in motion"]
  | _ => []

/-- The journey names accepted by `PromptEvolver.__init__`. -/
def journeyNames : List String := ["abstract", "nature", "cosmic", "liquid"]

/-- `COLOR_PALETTE`, verbatim from the source. -/
def COLOR_PALETTE : List String :=
  ["blue", "purple", "orange", "red", "green", "turquoise", "magenta", "cyan",
   "amber", "violet", "crimson", "emerald", "golden", "silver", "coral",
   "indigo", "rose", "teal"]

/-- `NATURE_ELEMENTS`, verbatim from the source. -/
def NATURE_ELEMENTS : List String :=
  ["leaves", "water", "fire", "clouds", "mountains", "flowers", "trees",
   "waves", "wind", "rain", "lightning", "mist"]

/-- `random.choice(l)` with a given draw `k` of randomness: an index into
the (non-empty) list, reduced modulo its length. -/
def choice (l : List String) (k : Nat) : String := l.getD (k % l.length) ""

/-- The opening brace character. -/
def lbrace : Char := '\x7b'

/-- The closing brace character. -/
def rbrace : Char := '\x7d'

/-- One left-to-right pass of Python's `str.format` over a character list:
outside a replacement field, copy characters until an opening brace;
inside one (`inField = true`), accumulate the field name (in reverse in
`acc`) until the closing brace, then emit `subst name`. -/
def formatGo (subst : List Char → List Char) : Bool → List Char → List Char → List Char
  | _, _, [] => []
  | false, _, c :: cs =>
    if c = lbrace then formatGo subst true [] cs
    else c :: formatGo subst false [] cs
  | true, acc, c :: cs =>
    if c = rbrace then subst acc.reverse ++ formatGo subst false [] cs
    else formatGo subst true (c :: acc) cs

/-- `template.format(color=..., color2=..., element=...)` as used in
`PromptEvolver.evolve` (prompt_evolution.py lines 129-133). -/
def pyFormat (template color color2 element : String) : String :=
  String.mk (formatGo
    (fun f =>
      if f = "color".data then color.data
      else if f = "color2".data then color2.data
      else if f = "element".data then element.data
      else f)
    false [] template.data)

/-- The template instantiation produced by iteration `n` of the
`while True` loop of `PromptEvolver.evolve`: the templates cycle in order
(`itertools.cycle`), and the three `random.choice` draws of the iteration
are supplied by the oracle `r n = (c1, c2, e)`. -/
def instAt (journey : String) (r : Nat → Nat × Nat × Nat) (n : Nat) : String :=
  pyFormat ((JOURNEYS journey).getD (n % (JOURNEYS journey).length) "")
    (choice COLOR_PALETTE (r n).1)
    (choice COLOR_PALETTE (r n).2.1)
    (choice NATURE_ELEMENTS (r n).2.2)

/-- The n-th prompt yielded by `PromptEvolver(journey, start).evolve()`:
the generator first yields `start` when it is truthy (`if self.start_prompt:`
— not `None` and not the empty string), then the cycled template
instantiations. -/
def evolveAt (journey : String) (start : Option String) (r : Nat → Nat × Nat × Nat)
    (n : Nat) : String :=
  match start with
  | some s =>
      if s ≠ "" then (if n = 0 then s else instAt journey r (n - 1))
      else instAt journey r n
  | none => instAt journey r n

/-- A generation stub that fails on its first two calls and succeeds (with
image 7) from the third call on. -/
def gFail2 : Nat → Option Image := fun n => if n < 2 then none else some 7

/-! ## Helper lemmas about the retry loop -/

/-- The events produced by `f` consecutive failed non-final attempts when
the first of them is attempt number `a0`: each contributes its generation
call followed by the `2 ^ attempt`-second backoff sleep. -/
def failEvents (p : String) (s : Option Nat) : Nat → Nat → List Event
  | _, 0 => []
  | a0, f + 1 =>
    Event.call ⟨p, s⟩ :: Event.sleep (2 ^ a0) :: failEvents p s (a0 + 1) f

lemma retry_success (gen : Nat → Option Image) (p : String) (s : Option Nat)
    (maxR : Nat) :
    ∀ f remaining ctr img, f < remaining → remaining ≤ maxR →
      (∀ i, i < f → gen (ctr + i) = none) → gen (ctr + f) = some img →
      retryLoop gen p s maxR remaining ctr =
        (RetryResult.ok p img,
         failEvents p s (maxR - remaining) f ++ [Event.call ⟨p, s⟩],
         ctr + f + 1) := by
  intro f
  induction f with
  | zero =>
    intro remaining ctr img hf _ _ hsucc
    obtain ⟨r, rfl⟩ : ∃ r, remaining = r + 1 := ⟨remaining - 1, by omega⟩
    rw [Nat.add_zero] at hsucc
    simp [retryLoop, hsucc, failEvents]
  | succ k ih =>
    intro remaining ctr img hf hle hfail hsucc
    obtain ⟨r, rfl⟩ : ∃ r, remaining = r + 1 := ⟨remaining - 1, by omega⟩
    have h0 : gen ctr = none := by simpa using hfail 0 (by omega)
    have hne : ¬ (maxR - (r + 1) = maxR - 1) := by omega
    have hshift : ctr + (k + 1) = ctr + 1 + k := by omega
    rw [hshift] at hsucc
    have hrec := ih r (ctr + 1) img (by omega) (by omega)
      (fun i hi => by
        have h := hfail (i + 1) (by omega)
        have : ctr + (i + 1) = ctr + 1 + i := by omega
        rwa [this] at h)
      hsucc
    have harith : maxR - r = maxR - (r + 1) + 1 := by omega
    simp [retryLoop, h0, hne, hrec, failEvents, harith]
    omega

lemma retry_allfail (gen : Nat → Option Image) (p : String) (s : Option Nat)
    (maxR : Nat) :
    ∀ remaining ctr, 1 ≤ remaining → remaining ≤ maxR →
      (∀ i, i < remaining → gen (ctr + i) = none) →
      retryLoop gen p s maxR remaining ctr =
        ((match gen (ctr + remaining) with
          | some img => RetryResult.ok "abstract colorful shapes [fallback]" img
          | none => RetryResult.raised),
         failEvents p s (maxR - remaining) (remaining - 1) ++
           [Event.call ⟨p, s⟩, Event.call ⟨"abstract colorful shapes", none⟩],
         ctr + remaining + 1) := by
  intro remaining
  induction remaining with
  | zero => intro ctr h1; omega
  | succ r ih =>
    intro ctr _ hle hfail
    cases r with
    | zero =>
      have h0 : gen ctr = none := by simpa using hfail 0 (by omega)
      cases hfb : gen (ctr + 1) <;>
        simp [retryLoop, h0, hfb, failEvents]
    | succ r' =>
      have h0 : gen ctr = none := by simpa using hfail 0 (by omega)
      have hne : ¬ (maxR - (r' + 1 + 1) = maxR - 1) := by omega
      have hrec := ih (ctr + 1) (by omega) (by omega)
        (fun i hi => by
          have h := hfail (i + 1) (by omega)
          have : ctr + (i + 1) = ctr + 1 + i := by omega
          rwa [this] at h)
      have hidx : ctr + 1 + (r' + 1) = ctr + (r' + 1 + 1) := by omega
      rw [hidx] at hrec
      have harith : maxR - (r' + 1) = maxR - (r' + 1 + 1) + 1 := by omega
      rw [retryLoop]
      simp only [h0]
      rw [if_neg hne, hrec]
      simp [failEvents, harith]

/-- With the producer's hardcoded `max_retries = 2`, the retry helper never
falls off its loop: the result is never the Python `None`. -/
lemma retry2_not_noneReturned (gen : Nat → Option Image) (p : String)
    (s : Option Nat) (ctr : Nat) :
    (retryLoop gen p s 2 2 ctr).1 ≠ RetryResult.noneReturned := by
  cases h0 : gen ctr <;> cases h1 : gen (ctr + 1) <;> cases h2 : gen (ctr + 2) <;>
    simp [retryLoop, h0, h1, h2]

@[simp] lemma sleepsOf_nil : sleepsOf [] = [] := rfl

@[simp] lemma sleepsOf_call (c : GenCall) (l : List Event) :
    sleepsOf (Event.call c :: l) = sleepsOf l := rfl

@[simp] lemma sleepsOf_sleep (n : Nat) (l : List Event) :
    sleepsOf (Event.sleep n :: l) = n :: sleepsOf l := rfl

/-- The backoff sleeps recorded in a run of failed non-final attempts
starting at attempt `a0` are exactly `2 ^ a0, …, 2 ^ (a0 + f - 1)`. -/
lemma sleepsOf_failEvents (p : String) (s : Option Nat) :
    ∀ f a0 rest, sleepsOf (failEvents p s a0 f ++ rest) =
      (List.range f).map (fun k => 2 ^ (a0 + k)) ++ sleepsOf rest := by
  intro f
  induction f with
  | zero => intro a0 rest; simp [failEvents]
  | succ k ih =>
    intro a0 rest
    have hcomp : ((fun j => 2 ^ (a0 + j)) ∘ Nat.succ) = fun j => 2 ^ (a0 + 1 + j) := by
      funext j
      simp only [Function.comp]
      congr 1
      omega
    rw [failEvents, List.cons_append, List.cons_append, sleepsOf_call, sleepsOf_sleep,
      ih (a0 + 1) rest, List.range_succ_eq_map, List.map_cons, List.map_map, hcomp]
    simp

@[simp] lemma callsOf_nil : callsOf [] = [] := rfl

@[simp] lemma callsOf_call (c : GenCall) (l : List Event) :
    callsOf (Event.call c :: l) = c :: callsOf l := rfl

@[simp] lemma callsOf_sleep (n : Nat) (l : List Event) :
    callsOf (Event.sleep n :: l) = callsOf l := rfl

/-- The generation calls recorded by `f` failed non-final attempts all use
the caller's prompt and seed. -/
lemma callsOf_failEvents (p : String) (s : Option Nat) :
    ∀ f a0 rest, callsOf (failEvents p s a0 f ++ rest) =
      List.replicate f (⟨p, s⟩ : GenCall) ++ callsOf rest := by
  intro f
  induction f with
  | zero => intro a0 rest; simp [failEvents]
  | succ k ih =>
    intro a0 rest
    rw [failEvents, List.cons_append, List.cons_append, callsOf_call, callsOf_sleep,
      ih (a0 + 1) rest, List.replicate_succ]
    simp

/-- `_generate_with_retry` at the literal default `max_retries = 2`. -/
lemma generateWithRetry_two (gen : Nat → Option Image) (p : String) (s : Option Nat)
    (ctr : Nat) : generateWithRetry gen p s 2 ctr = retryLoop gen p s 2 2 ctr := rfl

/-- The producer never puts the Python `None` on the queue: with the
hardcoded `max_retries = 2` the retry helper cannot fall off its loop. -/
lemma producerIter_ne_some_none (it : Nat → Option String) (gen : Nat → Option Image)
    (n : Nat) (s : PState) :
    (producerIter it gen n s).1 ≠ some none := by
  intro h
  unfold producerIter at h
  dsimp only at h
  split at h
  · split at h
    · simp at h
    · split at h
      · simp at h
      · simp at h
      · rename_i heq
        rw [generateWithRetry_two] at heq
        exact retry2_not_noneReturned _ _ _ _ heq
  · split at h
    · simp at h
    · split at h
      · simp at h
      · simp at h
      · rename_i heq
        rw [generateWithRetry_two] at heq
        exact retry2_not_noneReturned _ _ _ _ heq

/-- Every value any bounded run of the producer puts on the queue is a
proper `(prompt, image)` pair. -/
lemma producerRun_items_shape (running : Nat → Bool) (it : Nat → Option String)
    (gen : Nat → Option Image) (n : Nat) :
    ∀ fuel i s x, x ∈ (producerRun running it gen n i fuel s).items →
      ∃ q im, x = some (q, im) := by
  intro fuel
  induction fuel with
  | zero => intro i s x hx; simp [producerRun] at hx
  | succ f ih =>
    intro i s x hx
    rw [producerRun] at hx
    by_cases hr : running i
    · simp only [hr, if_true] at hx
      rcases List.mem_append.mp hx with h | h
      · cases hstep : (producerIter it gen n s).1 with
        | none =>
          rw [hstep] at h
          simp at h
        | some v =>
          rw [hstep] at h
          simp at h
          subst h
          cases x with
          | none => exact absurd hstep (producerIter_ne_some_none it gen n s)
          | some fr => exact ⟨fr.1, fr.2, rfl⟩
      · exact ih (i + 1) _ x h
    · simp [hr] at hx

/-! ## Claims -/

/-- Claim C10: calling `_generate_with_retry` with `max_retries <= 0` runs
the loop body zero times: no generation call at all is recorded (neither a
normal nor a fallback one) and the function returns Python `None` — not a
`(prompt, image)` pair — leaving the generator oracle untouched. -/
theorem C10_nonpositive_retries_returns_none (gen : Nat → Option Image)
    (p : String) (s : Option Nat) (m : Int) (ctr : Nat) (hm : m ≤ 0) :
    generateWithRetry gen p s m ctr = (RetryResult.noneReturned, [], ctr) := by
  have h : m.toNat = 0 := Int.toNat_eq_zero.mpr hm
  simp [generateWithRetry, h, retryLoop]

/-- Witness for C10 at `max_retries = -1`. -/
theorem C10_nonpositive_retries_returns_none_witness :
    (-1 : Int) ≤ 0 ∧
      generateWithRetry gFail2 "p" none (-1) 0 =
        (RetryResult.noneReturned, [], 0) :=
  ⟨by decide, C10_nonpositive_retries_returns_none gFail2 "p" none (-1) 0 (by decide)⟩

/-- Claim C7: in one retry sequence, after every failed non-final attempt
`k` the helper sleeps exactly `2 ^ k` seconds before attempt `k + 1` — the
recorded backoff schedule is `2^0, 2^1, …`, both when some attempt finally
succeeds (first conjunct: `f` initial failures, `f < max_retries`) and when
every attempt fails and the fallback is reached (second conjunct: sleeps for
attempts `0, …, max_retries - 2` only, none after the final attempt).  With
the default `max_retries = 2` this is the single `2 ^ 0 = 1` second delay
between attempt 0 and attempt 1. -/
theorem C7_backoff_schedule (gen : Nat → Option Image) (p : String) (s : Option Nat)
    (m ctr : Nat) :
    (∀ f img, f < m → (∀ i, i < f → gen (ctr + i) = none) → gen (ctr + f) = some img →
      sleepsOf (generateWithRetry gen p s (m : Int) ctr).2.1 =
        (List.range f).map (fun k => 2 ^ k)) ∧
    (1 ≤ m → (∀ i, i < m → gen (ctr + i) = none) →
      sleepsOf (generateWithRetry gen p s (m : Int) ctr).2.1 =
        (List.range (m - 1)).map (fun k => 2 ^ k)) := by
  have hm : ((m : Int)).toNat = m := Int.toNat_natCast m
  constructor
  · intro f img hf hfail hsucc
    rw [generateWithRetry, hm, retry_success gen p s m f m ctr img hf (le_refl m) hfail hsucc]
    simp only [Nat.sub_self]
    rw [sleepsOf_failEvents]
    simp
  · intro hm1 hfail
    rw [generateWithRetry, hm, retry_allfail gen p s m m ctr hm1 (le_refl m) hfail]
    simp only [Nat.sub_self]
    rw [sleepsOf_failEvents]
    simp

/-- A generation stub that fails on its first call and succeeds (with image
5) from the second call on. -/
def gFail1 : Nat → Option Image := fun n => if n < 1 then none else some 5

/-- Witness for C7: default `max_retries = 2`, attempt 0 fails, attempt 1
succeeds; the recorded backoff schedule is the single 1-second sleep. -/
theorem C7_backoff_schedule_witness :
    sleepsOf (generateWithRetry gFail1 "p" none ((2 : Nat) : Int) 0).2.1 =
      (List.range 1).map (fun k => 2 ^ k) :=
  (C7_backoff_schedule gFail1 "p" none 2 0).1 1 5 (by decide)
    (fun i hi => by
      have h0 : i = 0 := by omega
      subst h0
      decide)
    (by decide)

/-- With an everywhere-failing generator an iteration of the producer loop
enqueues nothing: the fallback call fails too, `_generate_with_retry`
raises, and the `except Exception` arm absorbs the error. -/
lemma producerIter_allfail (it : Nat → Option String) (gen : Nat → Option Image)
    (n : Nat) (s : PState) (h : ∀ k, gen k = none) :
    (producerIter it gen n s).1 = none := by
  have hres : ∀ p ctr, (generateWithRetry gen p none 2 ctr).1 = RetryResult.raised := by
    intro p ctr
    rw [generateWithRetry_two,
      retry_allfail gen p none 2 2 ctr (by omega) (le_refl 2) (fun i _ => h _)]
    simp [h (ctr + 2)]
  unfold producerIter
  dsimp only
  split <;> split <;> simp [hres]

/-- Claim C1 (amended): (i) if some attempt succeeds before the
`max_retries` attempts are exhausted, `_generate_with_retry` returns the
pair `(p, image)` of that successful attempt; (ii) if all `max_retries`
attempts fail and the single fallback call succeeds, it returns exactly one
fallback-labelled frame, and the call trace is the caller's prompt/seed
`max_retries` times followed by exactly one call with the hardcoded prompt
"abstract colorful shapes" and no seed; (iii) if the fallback call fails as
well (e.g. a stub that always fails), the producer's iteration absorbs the
raised error and enqueues nothing; (iv) in every case, any value the
producer puts on the queue is a proper `(prompt, image)` frame, so no
generation failure ever reaches the display loop through the queue. -/
theorem C1_retry_then_fallback (gen : Nat → Option Image) (p : String)
    (s : Option Nat) (m ctr f : Nat) (img : Image) :
    (f < m → (∀ i, i < f → gen (ctr + i) = none) → gen (ctr + f) = some img →
      (generateWithRetry gen p s (m : Int) ctr).1 = RetryResult.ok p img) ∧
    (1 ≤ m → (∀ i, i < m → gen (ctr + i) = none) → gen (ctr + m) = some img →
      (generateWithRetry gen p s (m : Int) ctr).1 =
          RetryResult.ok "abstract colorful shapes [fallback]" img ∧
        callsOf (generateWithRetry gen p s (m : Int) ctr).2.1 =
          List.replicate m (⟨p, s⟩ : GenCall) ++
            [(⟨"abstract colorful shapes", none⟩ : GenCall)]) ∧
    ((∀ k, gen k = none) → ∀ it n st, (producerIter it gen n st).1 = none) ∧
    (∀ running it n i fuel st x,
      x ∈ (producerRun running it gen n i fuel st).items →
        ∃ q im, x = some (q, im)) := by
  have hm : ((m : Int)).toNat = m := Int.toNat_natCast m
  refine ⟨?_, ?_, ?_, ?_⟩
  · intro hf hfail hsucc
    rw [generateWithRetry, hm,
      retry_success gen p s m f m ctr img hf (le_refl m) hfail hsucc]
  · intro hm1 hfail hsucc
    rw [generateWithRetry, hm, retry_allfail gen p s m m ctr hm1 (le_refl m) hfail]
    rw [hsucc]
    refine ⟨rfl, ?_⟩
    rw [Nat.sub_self]
    rw [callsOf_failEvents]
    have hsplit : List.replicate m (⟨p, s⟩ : GenCall) ++
        [(⟨"abstract colorful shapes", none⟩ : GenCall)] =
        List.replicate (m - 1) (⟨p, s⟩ : GenCall) ++
          [(⟨p, s⟩ : GenCall), (⟨"abstract colorful shapes", none⟩ : GenCall)] := by
      obtain ⟨m', rfl⟩ : ∃ m', m = m' + 1 := ⟨m - 1, by omega⟩
      rw [List.replicate_succ']
      simp
    rw [hsplit]
    simp
  · intro h it n st
    exact producerIter_allfail it gen n st h
  · intro running it n i fuel st x hx
    exact producerRun_items_shape running it gen n fuel i st x hx

/-- Counterexample to C1 as stated: with a generation stub that always
fails, two iterations of the producer (one prompt slot, `frames_per_cycle =
1`) yield no frame at all — not "exactly one fallback frame per prompt
slot" — and make two fallback generation calls, not exactly one. -/
theorem C1_always_fail_counterexample :
    (producerRun (fun _ => true) (fun k => some (toString k)) (fun _ => none)
        1 0 2 PState.init).items = [] ∧
      ((producerRun (fun _ => true) (fun k => some (toString k)) (fun _ => none)
            1 0 2 PState.init).events.filter
          (fun e => e = Event.call ⟨"abstract colorful shapes", none⟩)).length = 2 := by
  decide

/-- Witness for C1: the stub that fails twice then succeeds, at the default
`max_retries = 2`: both normal attempts fail, the fallback call succeeds,
and the result is the fallback-labelled frame with the successful image;
the trace is two calls with the caller's prompt and one fallback call. -/
theorem C1_retry_then_fallback_witness :
    (generateWithRetry gFail2 "p" none ((2 : Nat) : Int) 0).1 =
        RetryResult.ok "abstract colorful shapes [fallback]" 7 ∧
      callsOf (generateWithRetry gFail2 "p" none ((2 : Nat) : Int) 0).2.1 =
        List.replicate 2 (⟨"p", none⟩ : GenCall) ++
          [(⟨"abstract colorful shapes", none⟩ : GenCall)] :=
  (C1_retry_then_fallback gFail2 "p" none 2 0 0 7).2.1 (by decide)
    (fun i hi => by
      match i, hi with
      | 0, _ => decide
      | 1, _ => decide)
    (by decide)

/-- The buffer bound is preserved by every channel step and hence by every
interleaving. -/
lemma qrun_length_invariant (cap : Nat) :
    ∀ (ops : List (QOp α)) (t : QTrace α), t.buf.length ≤ cap →
      (ops.foldl (qstep cap) t).buf.length ≤ cap := by
  intro ops
  induction ops with
  | nil => intro t h; simpa using h
  | cons op rest ih =>
    intro t h
    rw [List.foldl_cons]
    apply ih
    cases op with
    | put x =>
      by_cases hx : t.buf.length < cap
      · simp [qstep, hx]
        omega
      · simp [qstep, hx]
        exact h
    | take =>
      cases hb : t.buf with
      | nil => simp [qstep, hb, h]
      | cons y ys =>
        rw [hb] at h
        simp at h
        simp [qstep, hb]
        omega

/-- Claim C2: for every capacity `C ≥ 1` and every interleaving of producer
puts and consumer takes through `asyncio.Queue(maxsize=C)`, the queue never
holds more than `C` frames; a put attempted on a full queue leaves the
producer suspended (no state change), a blocking take on an empty queue
leaves the consumer suspended, and the non-blocking `empty()` poll returns
`true` exactly in the states where a blocking take would suspend. -/
theorem C2_bounded_capacity (cap : Nat) (_hC : 1 ≤ cap) (ops : List (QOp Frame)) :
    (qrun cap ops).buf.length ≤ cap ∧
    (∀ (t : QTrace Frame) (x : Frame), t.buf.length = cap →
      qstep cap t (QOp.put x) = t) ∧
    (∀ t : QTrace Frame, t.buf = [] → qstep cap t QOp.take = t) ∧
    (∀ t : QTrace Frame, emptyPoll t = true ↔ qstep cap t QOp.take = t) := by
  refine ⟨qrun_length_invariant cap ops ⟨[], [], []⟩ (by simp), ?_, ?_, ?_⟩
  · intro t x h
    simp [qstep, h]
  · intro t h
    simp [qstep, h]
  · intro t
    cases hb : t.buf with
    | nil =>
      simp [emptyPoll, hb, qstep]
    | cons y ys =>
      simp only [emptyPoll, hb, List.isEmpty_cons, qstep]
      constructor
      · intro h
        cases h
      · intro h
        have hd := congrArg QTrace.delivered h
        simp at hd

/-- Witness for C2 at capacity 2 with a concrete overfull interleaving. -/
theorem C2_bounded_capacity_witness :
    1 ≤ 2 ∧
      ((qrun 2 [QOp.put (("a", 0) : Frame), QOp.put ("b", 1), QOp.put ("c", 2),
          QOp.take, QOp.put ("d", 3)]).buf.length ≤ 2 ∧
        (∀ (t : QTrace Frame) (x : Frame), t.buf.length = 2 →
          qstep 2 t (QOp.put x) = t) ∧
        (∀ t : QTrace Frame, t.buf = [] → qstep 2 t QOp.take = t) ∧
        (∀ t : QTrace Frame, emptyPoll t = true ↔ qstep 2 t QOp.take = t)) :=
  ⟨by decide,
   C2_bounded_capacity 2 (by decide)
     [QOp.put ("a", 0), QOp.put ("b", 1), QOp.put ("c", 2), QOp.take, QOp.put ("d", 3)]⟩

/-- Claim C3: through every interleaving, the sequence of frames the channel
accepted from the producer equals the frames delivered to the consumer
followed by the frames still buffered — the consumer receives exactly the
inserted frames, each once, in insertion (= generation) order, with no
reordering, duplication or dropping. -/
theorem C3_fifo_order (cap : Nat) (ops : List (QOp Frame)) :
    (qrun cap ops).inserted = (qrun cap ops).delivered ++ (qrun cap ops).buf := by
  have key : ∀ (l : List (QOp Frame)) (t : QTrace Frame),
      t.inserted = t.delivered ++ t.buf →
      (l.foldl (qstep cap) t).inserted =
        (l.foldl (qstep cap) t).delivered ++ (l.foldl (qstep cap) t).buf := by
    intro l
    induction l with
    | nil => intro t h; simpa using h
    | cons op rest ih =>
      intro t h
      rw [List.foldl_cons]
      apply ih
      cases op with
      | put x =>
        by_cases hx : t.buf.length < cap
        · simp [qstep, hx, h, List.append_assoc]
        · simp [qstep, hx, h]
      | take =>
        cases hb : t.buf with
        | nil => simpa [qstep, hb] using h
        | cons y ys =>
          rw [hb] at h
          simp [qstep, hb, h, List.append_assoc]
  exact key ops ⟨[], [], []⟩ (by simp)

/-- If `prefill`'s polling loop exits at poll `r`, the size seen there had
reached the depth and every earlier poll saw a smaller size. -/
lemma prefillRun_sound (qsize : Nat → Nat) (depth : Nat) :
    ∀ fuel j r, prefillRun qsize depth j fuel = some r →
      j ≤ r ∧ depth ≤ qsize r ∧ ∀ i, j ≤ i → i < r → qsize i < depth := by
  intro fuel
  induction fuel with
  | zero => intro j r h; simp [prefillRun] at h
  | succ f ih =>
    intro j r h
    rw [prefillRun] at h
    by_cases hq : qsize j < depth
    · rw [if_pos hq] at h
      obtain ⟨hjr, hd, hmid⟩ := ih (j + 1) r h
      refine ⟨by omega, hd, fun i hji hir => ?_⟩
      rcases Nat.eq_or_lt_of_le hji with rfl | hlt
      · exact hq
      · exact hmid i (by omega) hir
    · rw [if_neg hq] at h
      injection h with h
      subst h
      exact ⟨le_refl j, by omega, fun i hji hir => by omega⟩

/-- While every poll sees a size below the depth, the loop keeps polling. -/
lemma prefillRun_still_polling (qsize : Nat → Nat) (depth : Nat) :
    ∀ fuel j, prefillRun qsize depth j fuel = none →
      ∀ i, j ≤ i → i < j + fuel → qsize i < depth := by
  intro fuel
  induction fuel with
  | zero => intro j _ i _ h2; omega
  | succ f ih =>
    intro j h i h1 h2
    rw [prefillRun] at h
    by_cases hq : qsize j < depth
    · rw [if_pos hq] at h
      rcases Nat.eq_or_lt_of_le h1 with rfl | hlt
      · exact hq
      · exact ih (j + 1) h i (by omega) (by omega)
    · rw [if_neg hq] at h
      cases h

/-- The loop exits at the first poll that sees the target depth. -/
lemma prefillRun_complete (qsize : Nat → Nat) (depth : Nat) :
    ∀ fuel j r, j ≤ r → r < j + fuel → depth ≤ qsize r →
      (∀ i, j ≤ i → i < r → qsize i < depth) →
      prefillRun qsize depth j fuel = some r := by
  intro fuel
  induction fuel with
  | zero => intro j r h1 h2; omega
  | succ f ih =>
    intro j r h1 h2 hd hmid
    rw [prefillRun]
    rcases Nat.eq_or_lt_of_le h1 with rfl | hlt
    · rw [if_neg (by omega)]
    · rw [if_pos (hmid j (le_refl j) hlt)]
      exact ih (j + 1) r (by omega) (by omega) hd (fun i ha hb => hmid i (by omega) hb)

/-- Claim C6: `prefill()` returns only once the polled queue size has
reached `queue_depth`: if it returns after poll `r`, that poll saw size
`≥ queue_depth` and every earlier poll saw a smaller size; while every poll
so far has seen a smaller size it is still suspended and polling; and it
does return at the first poll that sees the target depth. -/
theorem C6_prefill_blocks_until_depth (qsize : Nat → Nat) (depth fuel r : Nat) :
    (prefillRun qsize depth 0 fuel = some r →
      depth ≤ qsize r ∧ ∀ i, i < r → qsize i < depth) ∧
    (prefillRun qsize depth 0 fuel = none → ∀ i, i < fuel → qsize i < depth) ∧
    (r < fuel → depth ≤ qsize r → (∀ i, i < r → qsize i < depth) →
      prefillRun qsize depth 0 fuel = some r) := by
  refine ⟨?_, ?_, ?_⟩
  · intro h
    obtain ⟨_, hd, hmid⟩ := prefillRun_sound qsize depth fuel 0 r h
    exact ⟨hd, fun i hi => hmid i (Nat.zero_le i) hi⟩
  · intro h i hi
    exact prefillRun_still_polling qsize depth fuel 0 h i (Nat.zero_le i) (by omega)
  · intro hr hd hmid
    exact prefillRun_complete qsize depth fuel 0 r (Nat.zero_le r) (by omega) hd
      (fun i _ hb => hmid i hb)

/-- Witness for C6 with the queue filling one frame per poll and depth 2:
prefill returns at poll 2, having seen sizes 0 and 1 before. -/
theorem C6_prefill_blocks_until_depth_witness :
    prefillRun (fun j => j) 2 0 5 = some 2 ∧
      2 ≤ (fun j => j) 2 ∧ ∀ i, i < 2 → (fun j => j) i < 2 :=
  ⟨by decide,
   (C6_prefill_blocks_until_depth (fun j => j) 2 5 2).1 (by decide)⟩

/-- A `get()` suspended on the empty queue of a stopped producer stays
suspended forever: the waiting state is a fixed point of the scheduler. -/
lemma getStopped_fixed : ∀ m : Nat,
    (getStoppedStep^[m] (([] : List Frame), false)).2 = false := by
  intro m
  rw [Function.iterate_fixed rfl]

/-- Counterexample to C5 as stated: `ImageQueue.get` is
`await self.queue.get()` with no timeout parameter, so a retrieval call on
the empty, stopped queue never returns — it is still suspended after every
finite number of scheduler steps, contradicting "they return within the
given timeout". -/
theorem C5_get_never_returns_counterexample : getStuckForever :=
  fun m => getStopped_fixed m

/-- Claim C5 (amended): calling `stop()` at iteration boundary `k` makes the
producer behave exactly like a full `k`-iteration run — the current
iteration (its in-flight generation call included) completes and its frame
is still enqueued, the loop exits at the next `while` check regardless of
how much fuel remains, and no further frames are enqueued; but a `get()` on
the empty, stopped queue has no timeout and never returns (callers avoid
the deadlock by polling `empty()` first). -/
theorem C5_stop_semantics (it : Nat → Option String) (gen : Nat → Option Image)
    (n k fuel : Nat) (s : PState) (hk : k ≤ fuel) :
    producerRun (fun j => decide (j < k)) it gen n 0 fuel s =
      producerRun (fun _ => true) it gen n 0 k s ∧
    getStuckForever := by
  have key : ∀ f i st, i ≤ k → k ≤ i + f →
      producerRun (fun j => decide (j < k)) it gen n i f st =
        producerRun (fun _ => true) it gen n i (k - i) st := by
    intro f
    induction f with
    | zero =>
      intro i st h1 h2
      have hik : k - i = 0 := by omega
      rw [hik]
      rfl
    | succ f ih =>
      intro i st h1 h2
      rcases Nat.eq_or_lt_of_le h1 with rfl | hlt
      · rw [Nat.sub_self]
        simp [producerRun]
      · obtain ⟨d, hd⟩ : ∃ d, k - i = d + 1 := ⟨k - i - 1, by omega⟩
        have hdec : decide (i < k) = true := decide_eq_true hlt
        have hkd : k - (i + 1) = d := by omega
        rw [hd]
        simp only [producerRun, hdec, if_true]
        rw [ih (i + 1) (producerIter it gen n st).2.2 (by omega) (by omega), hkd]
  refine ⟨?_, fun m => getStopped_fixed m⟩
  have h := key fuel 0 s (Nat.zero_le k) (by omega)
  simpa using h

/-- Witness for C5 at a concrete stop time: stopping after 2 of 5 possible
iterations produces exactly the 2-iteration run. -/
theorem C5_stop_semantics_witness :
    producerRun (fun j => decide (j < 2)) (fun p => some (toString p))
        (fun _ => some 0) 1 0 5 PState.init =
      producerRun (fun _ => true) (fun p => some (toString p))
        (fun _ => some 0) 1 0 2 PState.init ∧
    getStuckForever :=
  C5_stop_semantics (fun p => some (toString p)) (fun _ => some 0) 1 2 5
    PState.init (by decide)

/-- Counterexample to C8 as stated: from the freshly initialised queue
state, a second `start()` is not the identity on the already-started state
— it leaves two producer tasks running, not one. -/
theorem C8_second_start_counterexample :
    startQ (startQ ⟨false, 0⟩) ≠ startQ ⟨false, 0⟩ ∧
      (startQ (startQ ⟨false, 0⟩)).producerTasks = 2 ∧
      (startQ ⟨false, 0⟩).producerTasks = 1 := by
  decide

/-- Claim C8 (amended): `start()` is not idempotent, before or after a
`stop()`: every call sets `_running` and spawns one additional producer
task via `asyncio.create_task` without cancelling the previous one, so a
repeated `start()` increases the number of live producer tasks by one. -/
theorem C8_start_spawns_new_task (c : QCtl) :
    (startQ c).running = true ∧ (startQ c).producerTasks = c.producerTasks + 1 :=
  ⟨rfl, rfl⟩

/-- On a never-exhausted prompt iterator, the refill loop draws the next
`n` prompts and advances the cursor by `n`. -/
lemma refill_total (f : Nat → String) :
    ∀ n pos, refill (fun k => some (f k)) n pos =
      ((List.range n).map (fun k => f (pos + k)), pos + n) := by
  intro n
  induction n with
  | zero => intro pos; simp [refill]
  | succ m ih =>
    intro pos
    have hcomp : ((fun k => f (pos + k)) ∘ Nat.succ) = fun k => f (pos + 1 + k) := by
      funext k
      simp only [Function.comp]
      congr 1
      omega
    rw [refill]
    simp only [ih (pos + 1)]
    rw [List.range_succ_eq_map, List.map_cons, List.map_map, hcomp]
    simp
    omega

/-- Indexing a mapped range in bounds. -/
lemma getD_map_range (h : Nat → String) (n i : Nat) (hi : i < n) (d : String) :
    ((List.range n).map h).getD i d = h i := by
  rw [List.getD_eq_getElem?_getD, List.getElem?_map, List.getElem?_range hi]
  rfl

@[simp] lemma callPrompts_nil : callPrompts [] = [] := rfl

@[simp] lemma callPrompts_call (c : GenCall) (l : List Event) :
    callPrompts (Event.call c :: l) = c.prompt :: callPrompts l := rfl

@[simp] lemma callPrompts_sleep (n : Nat) (l : List Event) :
    callPrompts (Event.sleep n :: l) = callPrompts l := rfl

@[simp] lemma callPrompts_append (l1 l2 : List Event) :
    callPrompts (l1 ++ l2) = callPrompts l1 ++ callPrompts l2 := by
  simp [callPrompts]

/-- One producer iteration in cycle mode (`frames_per_cycle = N > 1`) on a
never-exhausted iterator and an always-succeeding generator: the buffer is
rebuilt with the next `N` prompts, the prompt at the frame cursor (mod `N`)
is generated and enqueued, and the cursor and iterator advance. -/
lemma producerIter_cycle (f : Nat → String) (g : Nat → Image) (N : Nat)
    (hN : 1 < N) (b : List String) (cc fi pos ctr : Nat) :
    producerIter (fun k => some (f k)) (fun k => some (g k)) N ⟨b, cc, fi, pos, ctr⟩ =
      (some (some (f (pos + fi % N), g ctr)),
       [Event.call ⟨f (pos + fi % N), none⟩],
       ⟨(List.range N).map (fun k => f (pos + k)), cc + 1, (fi + 1) % N,
        pos + N, ctr + 1⟩) := by
  have hlen : ((List.range N).map (fun k => f (pos + k))).length = N := by simp
  have htake : ((List.range N).map (fun k => f (pos + k))).take N =
      (List.range N).map (fun k => f (pos + k)) :=
    List.take_of_length_le (by simp)
  have hret := retry_success (fun k => some (g k)) (f (pos + fi % N)) none 2 0 2 ctr
    (g ctr) (by omega) (le_refl 2) (fun i hi => absurd hi (by omega)) (by simp)
  unfold producerIter
  simp only [hN, or_true, if_true, refill_total, htake]
  rw [if_neg (by rw [hlen]; omega)]
  rw [hlen, getD_map_range (fun k => f (pos + k)) N (fi % N) (Nat.mod_lt fi (by omega)) ""]
  rw [generateWithRetry_two, hret]
  simp [failEvents]

/-- In cycle mode the producer's generation calls walk the iterator: call
`j` (counting from the given state) uses prompt `f (pos + j*N + (fi+j) % N)`. -/
lemma producer_cycle_run (f : Nat → String) (g : Nat → Image) (N : Nat) (hN : 1 < N) :
    ∀ fuel i b cc fi pos ctr,
      callPrompts (producerRun (fun _ => true) (fun k => some (f k))
          (fun k => some (g k)) N i fuel ⟨b, cc, fi, pos, ctr⟩).events =
        (List.range fuel).map (fun j => f (pos + j * N + (fi + j) % N)) := by
  intro fuel
  induction fuel with
  | zero => intro i b cc fi pos ctr; simp [producerRun, callPrompts]
  | succ m ih =>
    intro i b cc fi pos ctr
    rw [producerRun]
    simp only [if_true]
    rw [producerIter_cycle f g N hN b cc fi pos ctr]
    rw [callPrompts_append,
      ih (i + 1) ((List.range N).map (fun k => f (pos + k))) (cc + 1)
        ((fi + 1) % N) (pos + N) (ctr + 1)]
    rw [callPrompts_call, callPrompts_nil]
    rw [List.range_succ_eq_map, List.map_cons, List.map_map]
    have harg : ∀ j : Nat,
        pos + N + j * N + ((fi + 1) % N + j) % N =
          pos + Nat.succ j * N + (fi + Nat.succ j) % N := by
      intro j
      rw [Nat.mod_add_mod]
      have hm : fi + 1 + j = fi + Nat.succ j := by omega
      rw [hm, Nat.succ_mul]
      omega
    have hcomp : ((fun j => f (pos + j * N + (fi + j) % N)) ∘ Nat.succ) =
        fun j => f (pos + N + j * N + ((fi + 1) % N + j) % N) := by
      funext j
      simp only [Function.comp]
      rw [harg j]
    rw [hcomp]
    simp

/-- The N = 1 first iteration: the buffer is filled once with the iterator's
next prompt; that prompt is generated. -/
lemma producerIter_n1_first (f : Nat → String) (g : Nat → Image)
    (b : List String) (fi pos ctr : Nat) :
    producerIter (fun k => some (f k)) (fun k => some (g k)) 1 ⟨b, 0, fi, pos, ctr⟩ =
      (some (some (f pos, g ctr)), [Event.call ⟨f pos, none⟩],
       ⟨[f pos], 1, 0, pos + 1, ctr + 1⟩) := by
  have hret := retry_success (fun k => some (g k)) (f pos) none 2 0 2 ctr
    (g ctr) (by omega) (le_refl 2) (fun i hi => absurd hi (by omega)) (by simp)
  have hbuf : List.take 1 ((List.range 1).map (fun k => f (pos + k))) = [f pos] := by
    have h1 : List.range 1 = [0] := rfl
    simp [h1]
  unfold producerIter
  simp [refill_total, hbuf, generateWithRetry_two, hret, failEvents, Nat.mod_one]

/-- The N = 1 later iterations: no refill happens (`cycle_count` is positive
and `frames_per_cycle` is not `> 1`), so the single buffered prompt is
generated again, forever. -/
lemma producerIter_n1_next (f : Nat → String) (g : Nat → Image)
    (p0 : String) (cc fi pos ctr : Nat) :
    producerIter (fun k => some (f k)) (fun k => some (g k)) 1
        ⟨[p0], cc + 1, fi, pos, ctr⟩ =
      (some (some (p0, g ctr)), [Event.call ⟨p0, none⟩],
       ⟨[p0], cc + 1, 0, pos, ctr + 1⟩) := by
  have hret := retry_success (fun k => some (g k)) p0 none 2 0 2 ctr
    (g ctr) (by omega) (le_refl 2) (fun i hi => absurd hi (by omega)) (by simp)
  unfold producerIter
  simp [generateWithRetry_two, hret, failEvents, Nat.mod_one]

/-- With `frames_per_cycle = 1`, every iteration after the first generates
the same single buffered prompt. -/
lemma producer_n1_run (f : Nat → String) (g : Nat → Image) (p0 : String) :
    ∀ fuel i cc fi pos ctr,
      callPrompts (producerRun (fun _ => true) (fun k => some (f k))
          (fun k => some (g k)) 1 i fuel ⟨[p0], cc + 1, fi, pos, ctr⟩).events =
        List.replicate fuel p0 := by
  intro fuel
  induction fuel with
  | zero => intro i cc fi pos ctr; simp [producerRun, callPrompts]
  | succ m ih =>
    intro i cc fi pos ctr
    rw [producerRun]
    simp only [if_true]
    rw [producerIter_n1_next f g p0 cc fi pos ctr]
    rw [callPrompts_append, ih (i + 1) cc 0 pos (ctr + 1)]
    simp [List.replicate_succ]

/-- Claim C4 (amended): in cycle mode (`frames_per_cycle = N > 1`) the
producer rebuilds its `N`-prompt buffer from the sequencer on every
iteration and indexes it with a cursor advancing modulo `N`, so generation
call `i` uses sequencer output number `i*N + (i mod N)`; the buffer placed
in the state by each iteration holds exactly `N` prompts; the call sequence
repeats with period `N` only when the sequencer itself repeats.  With
`N = 1` the buffer is filled once and that single first prompt is used for
every generation call. -/
theorem C4_cycle_mode_prompt_schedule (f : Nat → String) (g : Nat → Image)
    (N fuel : Nat) :
    (1 < N →
      callPrompts (producerRun (fun _ => true) (fun k => some (f k))
          (fun k => some (g k)) N 0 fuel PState.init).events =
        (List.range fuel).map (fun i => f (i * N + i % N)) ∧
      ∀ b cc fi pos ctr,
        ((producerIter (fun k => some (f k)) (fun k => some (g k)) N
            ⟨b, cc, fi, pos, ctr⟩).2.2).buffer.length = N) ∧
    (N = 1 →
      callPrompts (producerRun (fun _ => true) (fun k => some (f k))
          (fun k => some (g k)) 1 0 fuel PState.init).events =
        List.replicate fuel (f 0)) := by
  constructor
  · intro hN
    constructor
    · rw [show PState.init = (⟨[], 0, 0, 0, 0⟩ : PState) from rfl]
      rw [producer_cycle_run f g N hN fuel 0 [] 0 0 0 0]
      congr 1
      funext j
      simp
    · intro b cc fi pos ctr
      rw [producerIter_cycle f g N hN b cc fi pos ctr]
      simp
  · intro h1
    subst h1
    cases fuel with
    | zero => simp [producerRun]
    | succ m =>
      rw [show PState.init = (⟨[], 0, 0, 0, 0⟩ : PState) from rfl]
      rw [producerRun]
      simp only [if_true]
      rw [producerIter_n1_first f g [] 0 0 0]
      rw [callPrompts_append, producer_n1_run f g (f 0) m 1]
      simp [List.replicate_succ]

/-- Counterexample to C4 as stated: `frames_per_cycle = 3` with a sequencer
yielding the distinct prompts "0", "1", "2", … and an always-succeeding
generator.  The buffer is rebuilt every iteration, so the first four
generation calls use prompts "0", "4", "8", "9": the prompt of call
`0 + 3` differs from the prompt of call `0`, refuting the claimed period-3
repetition a,b,c,a,b,c,…. -/
theorem C4_period_counterexample :
    callPrompts (producerRun (fun _ => true) (fun k => some (toString k))
        (fun _ => some (0 : Image)) 3 0 4 PState.init).events =
      ["0", "4", "8", "9"] ∧
    (callPrompts (producerRun (fun _ => true) (fun k => some (toString k))
        (fun _ => some (0 : Image)) 3 0 4 PState.init).events).getD 3 "" ≠
      (callPrompts (producerRun (fun _ => true) (fun k => some (toString k))
          (fun _ => some (0 : Image)) 3 0 4 PState.init).events).getD 0 "" := by
  decide

/-- Witness for C4 at `N = 2`, three iterations: generation calls use
sequencer outputs 0, 3, 6 (= `i*2 + i % 2`), and every iteration leaves a
2-prompt buffer. -/
theorem C4_cycle_mode_prompt_schedule_witness :
    callPrompts (producerRun (fun _ => true) (fun k => some (toString k))
        (fun _ => some (0 : Image)) 2 0 3 PState.init).events =
      (List.range 3).map (fun i => toString (i * 2 + i % 2)) ∧
    ∀ b cc fi pos ctr,
      ((producerIter (fun k => some (toString k)) (fun _ => some (0 : Image)) 2
          ⟨b, cc, fi, pos, ctr⟩).2.2).buffer.length = 2 :=
  (C4_cycle_mode_prompt_schedule (fun k => toString k) (fun _ => 0) 2 3).1 (by decide)

/-- `random.choice` on a non-empty vocabulary returns one of its members. -/
lemma choice_mem (l : List String) (hl : l ≠ []) (k : Nat) : choice l k ∈ l := by
  unfold choice
  have hlen : 0 < l.length := List.length_pos.mpr hl
  have hk : k % l.length < l.length := Nat.mod_lt k hlen
  rw [List.getD_eq_getElem?_getD, List.getElem?_eq_getElem hk]
  exact List.getElem_mem hk

/-- Claim C9 (amended): in evolving mode with a non-empty custom starting
prompt, the first yielded prompt is that starting prompt, and every later
prompt (the n+1-st overall) is the n-th template of the selected journey's
list, cycled in order (index `n mod len`), with its placeholders filled by
members of the fixed color and element vocabularies; the starting prompt's
text can, however, be yielded again when a random instantiation happens to
coincide with it. -/
theorem C9_evolver_start_then_cycle (j s : String) (r : Nat → Nat × Nat × Nat)
    (n : Nat) (_hj : j ∈ journeyNames) (hs : s ≠ "") :
    evolveAt j (some s) r 0 = s ∧
    ∃ c c2 e, c ∈ COLOR_PALETTE ∧ c2 ∈ COLOR_PALETTE ∧ e ∈ NATURE_ELEMENTS ∧
      evolveAt j (some s) r (n + 1) =
        pyFormat ((JOURNEYS j).getD (n % (JOURNEYS j).length) "") c c2 e := by
  constructor
  · simp [evolveAt, hs]
  · refine ⟨choice COLOR_PALETTE (r n).1, choice COLOR_PALETTE (r n).2.1,
      choice NATURE_ELEMENTS (r n).2.2, ?_, ?_, ?_, ?_⟩
    · exact choice_mem COLOR_PALETTE (by decide) (r n).1
    · exact choice_mem COLOR_PALETTE (by decide) (r n).2.1
    · exact choice_mem NATURE_ELEMENTS (by decide) (r n).2.2
    · simp [evolveAt, hs, instAt]

/-- Counterexample to C9 as stated: with the "abstract" journey, the custom
starting prompt "geometric blue shapes flowing smoothly" and a randomness
oracle that always picks index 0 (color "blue"), the sequencer yields the
starting prompt at position 0 and yields the very same string again at
position 1 — the first template instantiation coincides with it — so the
start prompt is not yielded "exactly once … and never again".  And a
supplied but empty starting prompt is skipped entirely (`if
self.start_prompt:` is false for `""`): the first yield is already a
template instantiation, not the supplied prompt. -/
theorem C9_start_prompt_recurs_counterexample :
    (evolveAt "abstract" (some "geometric blue shapes flowing smoothly")
        (fun _ => (0, 0, 0)) 0 = "geometric blue shapes flowing smoothly" ∧
      evolveAt "abstract" (some "geometric blue shapes flowing smoothly")
        (fun _ => (0, 0, 0)) 1 = "geometric blue shapes flowing smoothly") ∧
      evolveAt "abstract" (some "") (fun _ => (0, 0, 0)) 0 =
        "geometric blue shapes flowing smoothly" := by
  decide

/-- Witness for C9: journey "abstract", start prompt "hello world", oracle
always picking index 0. -/
theorem C9_evolver_start_then_cycle_witness :
    evolveAt "abstract" (some "hello world") (fun _ => (0, 0, 0)) 0 = "hello world" ∧
    ∃ c c2 e, c ∈ COLOR_PALETTE ∧ c2 ∈ COLOR_PALETTE ∧ e ∈ NATURE_ELEMENTS ∧
      evolveAt "abstract" (some "hello world") (fun _ => (0, 0, 0)) (0 + 1) =
        pyFormat ((JOURNEYS "abstract").getD
          (0 % (JOURNEYS "abstract").length) "") c c2 e :=
  C9_evolver_start_then_cycle "abstract" "hello world" (fun _ => (0, 0, 0)) 0
    (by decide) (by decide)

end AsciiDream
